import Mathlib

/-!
Shallow embedding of `src/sftp-sync.py` (the `SftpSync` class and its
module-level helpers) and proofs about the claims of the specification.

Conventions of the embedding:
* Python exceptions propagate; the run monad `M` below threads a trace of the
  externally visible operations (SFTP fetch/put/rename, webhook POST, local
  zip creation) and short-circuits on the first uncaught exception, exactly
  as the Python code, which contains no try/except in the transfer path.
* The state file on disk is a `StoredBlob`; `pickle.load`/`pickle.dump` and
  the "open for writing truncates in place" behaviour are modelled at the
  granularity the claims need.
* Nondeterminism of the outside world (which network calls fail on a given
  run) is resolved by an `Env` of failure oracles, one run at a time.
-/

set_option maxRecDepth 4000

namespace SftpSyncModel

/-- One entry of `sftp.listdir_attr()`: the fields of a
`paramiko.SFTPAttributes` the program reads (`.filename` and `.st_size`). -/
structure SFTPAttr where
  filename : String
  st_size  : Nat
deriving Repr, DecidableEq

/-- The resolved run configuration consumed by the `SftpSync` instance:
`name` and `archive_dir` come from `[main]` (both demanded by `get_config`),
`zip = bool(config["main"].get("zip"))` (line 54) and
`slack = config["main"].get("slack")` read at line 179. -/
structure Config where
  name        : String
  archive_dir : String
  zip         : Bool
  slack       : Option String
deriving Repr, DecidableEq

/-- Exceptions that can abort `SftpSync.transfer`.  The Python transfer path
has no try/except, so each of these propagates out of the run. -/
inductive Err where
  | fetchError (filename : String)      -- `self.source.get` fails
  | putError (remote : String)          -- `self.dest.put` fails
  | postError (message : String)        -- `requests.post` fails
  | renameError (filename : String)     -- `self.source.rename` fails
  | attributeError (attr : String)      -- attribute lookup fails on the instance
  | unpickleError                       -- `pickle.load` on a damaged state file
deriving Repr, DecidableEq

/-- Externally visible operations performed during a run, in order. -/
inductive Effect where
  | fetch (filename localpath : String)       -- `self.source.get(filename, localpath)`
  | put (localpath remote : String)           -- `self.dest.put(localpath, remote)`
  | zipBuild (path : String) (entries : List String)  -- `zipfile.ZipFile(path, "w")` + writes
  | post (url message : String)               -- `requests.post(url, data=payload)`
  | rename (filename target : String)         -- `self.source.rename(filename, target)`
deriving Repr, DecidableEq

/-- Failure oracles for one concrete run, plus the value of `date.today()`
formatted as in line 159. -/
structure Env where
  fetchFails  : String → Bool
  putFails    : String → Bool
  postFails   : String → Bool
  renameFails : String → Bool
  today       : String

/-- Run monad: a trace of effects threaded through the computation, with
Python exception propagation (first uncaught exception aborts). -/
def M (α : Type) : Type := List Effect → Except Err α × List Effect

instance : Monad M where
  pure a := fun s => (Except.ok a, s)
  bind x f := fun s =>
    match x s with
    | (Except.ok a, s₁) => f a s₁
    | (Except.error e, s₁) => (Except.error e, s₁)

/-- Raise a Python exception. -/
def M.throw {α : Type} (e : Err) : M α := fun s => (Except.error e, s)

/-- Record one externally visible operation. -/
def M.emit (eff : Effect) : M Unit := fun s => (Except.ok (), s ++ [eff])

theorem M.bind_apply {α β : Type} (x : M α) (f : α → M β) (s : List Effect) :
    (x >>= f) s =
      match x s with
      | (Except.ok a, s₁) => f a s₁
      | (Except.error e, s₁) => (Except.error e, s₁) := rfl

theorem M.pure_apply {α : Type} (a : α) (s : List Effect) :
    (pure a : M α) s = (Except.ok a, s) := rfl

theorem M.throw_apply {α : Type} (e : Err) (s : List Effect) :
    (M.throw e : M α) s = (Except.error e, s) := rfl

theorem M.emit_apply (eff : Effect) (s : List Effect) :
    M.emit eff s = (Except.ok (), s ++ [eff]) := rfl

/-- Contents of the on-disk state file `.<name>.pickle`. -/
inductive StoredBlob where
  | missing
  | pickleOf (files : List String)
  /-- A strict prefix of the pickle serialization of `files` (the write
  stopped after `bytesWritten` bytes): not deserializable. -/
  | truncatedPickle (files : List String) (bytesWritten : Nat)
deriving Repr, DecidableEq

/-- `SftpSync.load_state` (lines 98-103): unpickle the state file;
`FileNotFoundError` yields `[]`; a truncated pickle raises when loaded. -/
def load_state_blob : StoredBlob → Except Err (List String)
  | StoredBlob.missing => Except.ok []
  | StoredBlob.pickleOf files => Except.ok files
  | StoredBlob.truncatedPickle _ _ => Except.error Err.unpickleError

/-- `SftpSync.store_state` (lines 105-107): `open(self.state_file, "wb")`
truncates the state file in place and `pickle.dump(files, fd)` then writes the
serialized list sequentially.  `crashAt = none` is a normal run; `crashAt =
some k` models a failure once `k` bytes of the new pickle have been written:
what remains visible is that prefix, and the previous contents are gone —
the code uses no temporary file and no atomic rename. -/
def store_state (_oldFile : StoredBlob) (files : List String)
    (crashAt : Option Nat) : StoredBlob :=
  match crashAt with
  | none => StoredBlob.pickleOf files
  | some k => StoredBlob.truncatedPickle files k

/-- The save operation the specification asks for instead ("write to temp +
rename, or equivalent atomic replace"): on a failure at any point the
previously persisted state is still what is visible. -/
def store_state_atomic (oldFile : StoredBlob) (files : List String)
    (crashAt : Option Nat) : StoredBlob :=
  match crashAt with
  | none => StoredBlob.pickleOf files
  | some _ => oldFile

/-- Python dict assignment `d[k] = v` on an insertion-ordered dict:
overwriting keeps the key at its original position. -/
def dictInsert (d : List (String × SFTPAttr)) (k : String) (v : SFTPAttr) :
    List (String × SFTPAttr) :=
  if d.any (fun p => p.1 == k) then
    d.map (fun p => if p.1 == k then (k, v) else p)
  else d ++ [(k, v)]

/-- The loop of `SftpSync.read_source_files` (lines 145-151): walk the
listing, recording in `self.file_details` every entry whose `st_size` is
truthy (nonzero); zero-byte entries are skipped. -/
def read_source_files_from (d : List (String × SFTPAttr)) :
    List SFTPAttr → List (String × SFTPAttr)
  | [] => d
  | f :: rest =>
      read_source_files_from
        (if f.st_size ≠ 0 then dictInsert d f.filename f else d) rest

/-- `self.file_details` after `read_source_files` ran on a fresh instance
(`self.file_details = {}` in `__init__`). -/
def file_details (listing : List SFTPAttr) : List (String × SFTPAttr) :=
  read_source_files_from [] listing

/-- `source_files = self.read_source_files(self.source)`: the return value
`self.file_details.keys()` (line 151). -/
def sourceFiles (listing : List SFTPAttr) : List String :=
  (file_details listing).map (fun p => p.1)

/-- `self.file_details[filename].st_size`: on every path where the code reads
it, `filename` is one of the dict keys, so the default branch is unreachable
there. -/
def lookupSize (d : List (String × SFTPAttr)) (f : String) : Nat :=
  match d.find? (fun p => p.1 == f) with
  | some p => p.2.st_size
  | none => 0

/-- Line 117: `diff = set(source_files) - set(transferred)`, which the run
then iterates.  Modelled as the listing-ordered list of source filenames not
in the loaded state: the same set, with a fixed (deterministic) iteration
order standing in for the arbitrary but fixed order of a Python set. -/
def diffList (source_files transferred : List String) : List String :=
  source_files.filter (fun f => decide (f ∉ transferred))

/-- The same expression read as the set it denotes: exact set subtraction. -/
def diffFinset (source_files transferred : List String) : Finset String :=
  source_files.toFinset \ transferred.toFinset

/-- Kinds of members bound in a Python class body. -/
inductive PyMember where
  | attr    -- a plain class attribute (e.g. `default_port = 22`)
  | pyprop  -- a `@property` descriptor
  | method  -- a `def`
deriving Repr, DecidableEq

/-- The class body of `SftpSync` in source order.  A Python class body
executes top to bottom, each statement assigning into the class dict, so a
later binding of a name silently replaces an earlier one. -/
def sftpSyncClassBody : List (String × PyMember) :=
  [("default_port", PyMember.attr),
   ("__init__", PyMember.method),
   ("_validate_sftp_config", PyMember.method),
   ("_validate_port", PyMember.method),
   ("get_sftp_connection", PyMember.method),
   ("load_state", PyMember.method),
   ("store_state", PyMember.method),
   ("archive", PyMember.pyprop),       -- lines 109-111
   ("transfer", PyMember.method),
   ("archive", PyMember.method),       -- lines 141-143: replaces the property
   ("read_source_files", PyMember.method),
   ("download_file", PyMember.method),
   ("transfer_zip", PyMember.method),
   ("transfer_file", PyMember.method),
   ("notify", PyMember.method)]

/-- Attribute lookup on the class dict: the last binding of a name wins. -/
def classAttr (body : List (String × PyMember)) (name : String) :
    Option PyMember :=
  match body.reverse.find? (fun p => p.1 == name) with
  | some p => some p.2
  | none => none

/-- Truthiness of `self.archive` at lines 129 and 135.  Because the
`def archive` at line 141 replaced the `@property` of line 109 in the class
dict, the lookup yields a function accessed as a bound method — always
truthy.  (Had the property survived, its getter evaluates
`bool(self.config.get("archive_dir"))`, and since `self.config` is the root
`ConfigParser`, `.get("archive_dir")` looks for a SECTION of that name, which
never exists, so the getter would have returned `False`.) -/
def archiveTruthy (_cfg : Config) : Bool :=
  match classAttr sftpSyncClassBody "archive" with
  | some PyMember.method => true
  | some PyMember.pyprop => false
  | some PyMember.attr => false
  | none => false

/-- `self.archive_file(filename)` at lines 130 and 137: `SftpSync` binds no
`archive_file` anywhere (instance or class), so the attribute lookup raises
`AttributeError` before any call happens. -/
def archive_file_call (_filename : String) : M Unit :=
  match classAttr sftpSyncClassBody "archive_file" with
  | some _ => pure ()
  | none => M.throw (Err.attributeError "archive_file")

/-- `self.source.get(filename, localpath)` — paramiko SFTP download. -/
def sourceGet (env : Env) (filename localpath : String) : M Unit :=
  if env.fetchFails filename then M.throw (Err.fetchError filename)
  else M.emit (Effect.fetch filename localpath)

/-- `self.dest.put(localpath, remote, confirm=True)`. -/
def destPut (env : Env) (localpath remote : String) : M Unit :=
  if env.putFails remote then M.throw (Err.putError remote)
  else M.emit (Effect.put localpath remote)

/-- `requests.post(url, data=payload)`. -/
def requestsPost (env : Env) (url message : String) : M Unit :=
  if env.postFails message then M.throw (Err.postError message)
  else M.emit (Effect.post url message)

/-- `self.source.rename(filename, target)` — used only by the `archive`
method of line 141, which nothing reachable calls. -/
def sourceRename (env : Env) (filename target : String) : M Unit :=
  if env.renameFails filename then M.throw (Err.renameError filename)
  else M.emit (Effect.rename filename target)

/-- `os.path.join(a, b)` for the paths this program builds (plain relative
names, so the join is a separator concat). -/
def pathJoin (a b : String) : String := a ++ "/" ++ b

/-- `SftpSync.download_file` (lines 153-156): stage the remote file under the
configured `archive_dir` and return the local path. -/
def download_file (cfg : Config) (env : Env) (filename : String) : M String := do
  let localpath := pathJoin cfg.archive_dir filename
  sourceGet env filename localpath
  pure localpath

/-- The default single-file notification text built at line 181. -/
def singleMsg (details : List (String × SFTPAttr)) (filename : String) :
    String :=
  "Transferred " ++ filename ++ " (" ++ toString (lookupSize details filename)
    ++ " bytes)"

/-- `SftpSync.notify` (lines 178-183): a no-op unless a `slack` URL is
configured; otherwise POST the message (default built from
`self.file_details`). -/
def notify (cfg : Config) (env : Env) (details : List (String × SFTPAttr))
    (filename : String) (message : Option String) : M Unit :=
  match cfg.slack with
  | none => pure ()
  | some url => requestsPost env url (message.getD (singleMsg details filename))

/-- `SftpSync.transfer_file` (lines 173-176): download to the local staging
path, put to the destination, then notify.  Any failure raises. -/
def transfer_file (cfg : Config) (env : Env)
    (details : List (String × SFTPAttr)) (filename : String) : M Unit := do
  let localpath ← download_file cfg env filename
  destPut env localpath filename
  notify cfg env details filename none

/-- The zip name of line 160: `<name>-<YYYY-MM-DD>.zip`. -/
def zipFilename (cfg : Config) (env : Env) : String :=
  cfg.name ++ "-" ++ env.today ++ ".zip"

/-- The local path of the zip (line 161). -/
def zipPath (cfg : Config) (env : Env) : String :=
  pathJoin cfg.archive_dir (zipFilename cfg env)

/-- `os.path.basename` for the staged paths. -/
def basename (p : String) : String := (p.splitOn "/").getLastD p

/-- One line of the batch message (line 169). -/
def zipEntryLine (details : List (String × SFTPAttr)) (f : String) : String :=
  "\n    - " ++ f ++ " (" ++ toString (lookupSize details f) ++ " bytes)"

/-- The batch message of lines 167-170. -/
def zipMsg (cfg : Config) (env : Env) (details : List (String × SFTPAttr))
    (filenames : List String) : String :=
  "Transferred " ++ zipFilename cfg env ++ "\n" ++ "```Contains:"
    ++ String.join (filenames.map (zipEntryLine details)) ++ "```"

/-- `SftpSync.transfer_zip` (lines 158-171): write every staged file into one
local zip (entries flattened to base names), put that single archive to the
destination, then notify with the batch message. -/
def transfer_zip (cfg : Config) (env : Env)
    (details : List (String × SFTPAttr)) (local_files : List String)
    (filenames : List String) : M Unit := do
  M.emit (Effect.zipBuild (zipPath cfg env) (local_files.map basename))
  destPut env (zipPath cfg env) (zipFilename cfg env)
  notify cfg env details (zipFilename cfg env)
    (some (zipMsg cfg env details filenames))

/-- The per-filename loop of `SftpSync.transfer` (lines 120-130): dry run
only prints; zip mode stages the file; direct mode transfers, appends to the
in-memory list, and (when `self.archive` is truthy) calls
`self.archive_file`. -/
def transferLoop (cfg : Config) (dry_run : Bool) (env : Env)
    (details : List (String × SFTPAttr)) :
    List String → List String → List String → M (List String × List String)
  | [], transferred, local_files => pure (transferred, local_files)
  | filename :: rest, transferred, local_files =>
    if dry_run then
      transferLoop cfg dry_run env details rest transferred local_files
    else if cfg.zip then do
      let lp ← download_file cfg env filename
      transferLoop cfg dry_run env details rest transferred (local_files ++ [lp])
    else do
      transfer_file cfg env details filename
      let transferred₁ := transferred ++ [filename]
      if archiveTruthy cfg then archive_file_call filename
      transferLoop cfg dry_run env details rest transferred₁ local_files

/-- The `for filename in diff: self.archive_file(filename)` loop of lines
136-137. -/
def archiveLoop : List String → M Unit
  | [] => pure ()
  | filename :: rest => do
    archive_file_call filename
    archiveLoop rest

/-- `SftpSync.transfer` (lines 113-139) up to the final `store_state`:
load state, list the source, diff, run the per-file loop, and (when the diff
is non-empty and zip mode is on — NOT guarded by `dry_run`) ship the batch
zip and archive each member.  Returns the list line 139 passes to
`store_state`; exceptions propagate. -/
def transferM (cfg : Config) (dry_run : Bool) (env : Env) (stored : StoredBlob)
    (listing : List SFTPAttr) : M (List String) := do
  let transferred ←
    match load_state_blob stored with
    | Except.ok t => pure t
    | Except.error e => M.throw e
  let details := file_details listing
  let source_files := sourceFiles listing
  let diffL := diffList source_files transferred
  let (transferred₁, local_files) ←
    transferLoop cfg dry_run env details diffL transferred []
  if diffL ≠ [] ∧ cfg.zip then do
    transfer_zip cfg env details local_files diffL
    let transferred₂ := transferred₁ ++ diffL
    if archiveTruthy cfg then archiveLoop diffL
    pure transferred₂
  else
    pure transferred₁

/-- One whole run of `SftpSync.transfer`: the result (the list handed to
`store_state`, or the uncaught exception) together with the trace of
externally visible operations. -/
def transfer (cfg : Config) (dry_run : Bool) (env : Env) (stored : StoredBlob)
    (listing : List SFTPAttr) : Except Err (List String) × List Effect :=
  transferM cfg dry_run env stored listing []

/-- The state file after a run: line 139 runs `store_state(transferred)` only
if nothing raised before it; an uncaught exception leaves the old file. -/
def stateFileAfter (cfg : Config) (dry_run : Bool) (env : Env)
    (stored : StoredBlob) (listing : List SFTPAttr) : StoredBlob :=
  match (transfer cfg dry_run env stored listing).1 with
  | Except.ok t => store_state stored t none
  | Except.error _ => stored

/-- Errors raised by config validation (`print` + `sys.exit(1)` sites). -/
inductive ConfigError where
  | missingSection (name : String)
  | missingKey (name : String)
  | portNotANumber
deriving Repr, DecidableEq

/-- One of the `[source]`/`[dest]` config sections. -/
structure SftpSection where
  host : Option String
  user : Option String
  pass : Option String
  port : Option String
  dir  : Option String
deriving Repr, DecidableEq

/-- The `[main]` section as read. -/
structure MainSection where
  name        : Option String
  archive_dir : Option String
  zip         : Option String
  slack       : Option String
deriving Repr, DecidableEq

/-- A parsed config file: which sections exist and what they hold. -/
structure RawConfig where
  source : Option SftpSection
  dest   : Option SftpSection
  main   : Option MainSection
deriving Repr, DecidableEq

/-- Strip leading and trailing whitespace from a character list (the
whitespace tolerance of Python `int(s)`). -/
def trimChars (cs : List Char) : List Char :=
  ((cs.dropWhile fun c => c.isWhitespace).reverse.dropWhile
    fun c => c.isWhitespace).reverse

/-- Read a non-empty all-digit character list as a number; `none` on any
non-digit. -/
def digitsToNatAux (acc : Nat) : List Char → Option Nat
  | [] => some acc
  | c :: cs =>
    if c.isDigit then digitsToNatAux (acc * 10 + (c.toNat - 48)) cs else none

/-- Python `int(s)` on a string: optional surrounding whitespace, optional
sign, then decimal digits; anything else raises `ValueError`. -/
def pyIntParse (s : String) : Option Int :=
  match trimChars s.data with
  | [] => none
  | '-' :: cs =>
    match cs with
    | [] => none
    | _ => (digitsToNatAux 0 cs).map (fun n => -(n : Int))
  | '+' :: cs =>
    match cs with
    | [] => none
    | _ => (digitsToNatAux 0 cs).map (fun n => (n : Int))
  | cs => (digitsToNatAux 0 cs).map (fun n => (n : Int))

/-- The class attribute `default_port = 22` (line 49). -/
def default_port : Nat := 22

/-- `SftpSync._validate_port` (lines 72-81): start from `port =
self.default_port`; if a `PORT` key exists, run `int(config["PORT"])` purely
as validation (exiting on failure) — and then return `port`, which was never
reassigned, so the parsed value is discarded. -/
def validate_port (port : Option String) : Except ConfigError Nat :=
  match port with
  | none => Except.ok default_port
  | some s =>
    match pyIntParse s with
    | none => Except.error ConfigError.portNotANumber
    | some _ => Except.ok default_port

/-- `SftpSync._validate_sftp_config` (lines 62-70): require `HOST`, `USER`,
`PASS`, then overwrite `config["PORT"]` with `str(self._validate_port(config))`. -/
def validate_sftp_config (c : SftpSection) : Except ConfigError SftpSection :=
  if c.host.isNone then Except.error (ConfigError.missingKey "HOST")
  else if c.user.isNone then Except.error (ConfigError.missingKey "USER")
  else if c.pass.isNone then Except.error (ConfigError.missingKey "PASS")
  else
    match validate_port c.port with
    | Except.error e => Except.error e
    | Except.ok p => Except.ok { c with port := some (toString p) }

/-- The port `get_sftp_connection` (line 86) actually dials:
`paramiko.Transport((config["HOST"], int(config["PORT"])))`, evaluated after
`_validate_sftp_config` has rewritten `PORT`. -/
def connection_port (c : SftpSection) : Except ConfigError Nat :=
  match validate_sftp_config c with
  | Except.error e => Except.error e
  | Except.ok c₂ => Except.ok (((pyIntParse (c₂.port.getD "")).getD 0).toNat)

/-- `get_config` (lines 27-44): after reading the file, require the sections
`source`, `dest` and `main`, then `name` AND `archive_dir` inside `[main]`
(lines 36-42).  Nothing else is checked here. -/
def get_config (c : RawConfig) : Except ConfigError RawConfig :=
  if c.source.isNone then Except.error (ConfigError.missingSection "source")
  else if c.dest.isNone then Except.error (ConfigError.missingSection "dest")
  else
    match c.main with
    | none => Except.error (ConfigError.missingSection "main")
    | some m =>
      if m.name.isNone then Except.error (ConfigError.missingKey "name")
      else if m.archive_dir.isNone then
        Except.error (ConfigError.missingKey "archive_dir")
      else Except.ok c

/-! ### General lemmas about the run -/

/-- `self.archive` is truthy no matter the configuration: the class-dict
lookup finds the method of line 141, never the property of line 109. -/
theorem archiveTruthy_eq_true (cfg : Config) : archiveTruthy cfg = true := rfl

/-- Every call of `self.archive_file` raises `AttributeError`. -/
theorem archive_file_call_apply (f : String) (s : List Effect) :
    archive_file_call f s =
      (Except.error (Err.attributeError "archive_file"), s) := rfl

/-- The archival loop of lines 136-137 raises on its first iteration. -/
theorem archiveLoop_cons_apply (f : String) (rest : List String)
    (s : List Effect) :
    archiveLoop (f :: rest) s =
      (Except.error (Err.attributeError "archive_file"), s) := rfl

theorem transferLoop_nil_apply (cfg : Config) (dry_run : Bool) (env : Env)
    (details : List (String × SFTPAttr)) (t lf : List String)
    (s : List Effect) :
    transferLoop cfg dry_run env details [] t lf s = (Except.ok (t, lf), s) :=
  rfl

/-- In dry-run mode the loop only prints: no effect, no error, no change. -/
theorem transferLoop_dry (cfg : Config) (env : Env)
    (details : List (String × SFTPAttr)) (fs : List String) :
    ∀ t lf s, transferLoop cfg true env details fs t lf s =
      (Except.ok (t, lf), s) := by
  induction fs with
  | nil => intro t lf s; rfl
  | cons f rest ih =>
    intro t lf s
    simpa [transferLoop] using ih t lf s

/-- In zip mode the loop never touches the in-memory `transferred` list: it
either raises (a download failed) or returns `transferred` unchanged. -/
theorem transferLoop_zipmode (cfg : Config) (env : Env)
    (details : List (String × SFTPAttr)) (hzip : cfg.zip = true)
    (fs : List String) :
    ∀ t lf s,
      (∃ e s₁, transferLoop cfg false env details fs t lf s =
        (Except.error e, s₁)) ∨
      (∃ lf₁ s₁, transferLoop cfg false env details fs t lf s =
        (Except.ok (t, lf₁), s₁)) := by
  induction fs with
  | nil => intro t lf s; right; exact ⟨lf, s, rfl⟩
  | cons f rest ih =>
    intro t lf s
    rcases hdl : download_file cfg env f s with ⟨r, s₁⟩
    cases r with
    | error e =>
      left
      exact ⟨e, s₁, by simp [transferLoop, hzip, M.bind_apply, hdl]⟩
    | ok lp =>
      rcases ih t (lf ++ [lp]) s₁ with ⟨e, s₂, h⟩ | ⟨lf₂, s₂, h⟩
      · left
        exact ⟨e, s₂, by simp [transferLoop, hzip, M.bind_apply, hdl, h]⟩
      · right
        exact ⟨lf₂, s₂, by simp [transferLoop, hzip, M.bind_apply, hdl, h]⟩

/-- A non-dry direct-mode loop over a non-empty diff always raises: either
the transfer of the first file fails, or — because `self.archive` is truthy —
the `self.archive_file` call that follows it raises `AttributeError`. -/
theorem transferLoop_direct_cons_error (cfg : Config) (env : Env)
    (details : List (String × SFTPAttr)) (hzip : cfg.zip = false)
    (f : String) (rest t lf : List String) (s : List Effect) :
    ∃ e s₁, transferLoop cfg false env details (f :: rest) t lf s =
      (Except.error e, s₁) := by
  rcases htf : transfer_file cfg env details f s with ⟨r, s₁⟩
  cases r with
  | error e =>
    exact ⟨e, s₁, by simp [transferLoop, hzip, M.bind_apply, htf]⟩
  | ok u =>
    refine ⟨Err.attributeError "archive_file", s₁, ?_⟩
    simp [transferLoop, hzip, M.bind_apply, htf, archiveTruthy_eq_true,
      archive_file_call_apply]

/-- If a run completes (reaches line 139), the list it hands to
`store_state` is exactly the list `load_state` returned: every path that
would add a filename raises before `store_state` — in direct mode the
`self.archive_file` AttributeError (or an earlier transfer error), in zip
mode the archival loop (or an earlier zip/staging error). -/
theorem transfer_ok_eq_loaded (cfg : Config) (dry_run : Bool) (env : Env)
    (stored : StoredBlob) (listing : List SFTPAttr) (t : List String)
    (effs : List Effect)
    (hrun : transfer cfg dry_run env stored listing = (Except.ok t, effs)) :
    load_state_blob stored = Except.ok t := by
  cases hload : load_state_blob stored with
  | error e =>
    simp only [transfer, transferM, hload, M.bind_apply, M.throw_apply] at hrun
    exact (Prod.mk.injEq _ _ _ _ ▸ hrun).1
  | ok t₀ =>
    simp only [transfer, transferM, hload, M.bind_apply, M.pure_apply] at hrun
    by_cases hd : diffList (sourceFiles listing) t₀ = []
    · rw [hd] at hrun
      simp only [transferLoop_nil_apply, ne_eq, not_true_eq_false, false_and,
        if_false, M.pure_apply, Prod.mk.injEq] at hrun
      exact hrun.1
    · obtain ⟨f, rest, hfr⟩ := List.exists_cons_of_ne_nil hd
      cases hzip : cfg.zip with
      | false =>
        rw [hzip] at hrun
        cases hdry : dry_run with
        | true =>
          subst hdry
          rw [transferLoop_dry] at hrun
          simp only [and_false, if_false, M.pure_apply, Prod.mk.injEq,
            Bool.false_eq_true] at hrun
          exact hrun.1
        | false =>
          subst hdry
          obtain ⟨e, s₁, hle⟩ :=
            transferLoop_direct_cons_error cfg env (file_details listing) hzip
              f rest t₀ [] []
          rw [hfr, hle] at hrun
          simp at hrun
      | true =>
        rw [hzip] at hrun
        cases hdry : dry_run with
        | true =>
          subst hdry
          rw [transferLoop_dry, hfr] at hrun
          rcases hz : transfer_zip cfg env (file_details listing) []
              (f :: rest) [] with ⟨r, s₂⟩
          cases r with
          | error e2 =>
            simp [M.bind_apply, hz] at hrun
          | ok u =>
            simp [M.bind_apply, hz, archiveTruthy_eq_true,
              archiveLoop_cons_apply] at hrun
        | false =>
          subst hdry
          rcases transferLoop_zipmode cfg env (file_details listing) hzip
              (diffList (sourceFiles listing) t₀) t₀ [] [] with
            ⟨e, s₁, hle⟩ | ⟨lf₁, s₁, hle⟩
          · rw [hle] at hrun
            simp at hrun
          · rw [hle, hfr] at hrun
            rcases hz : transfer_zip cfg env (file_details listing) lf₁
                (f :: rest) s₁ with ⟨r, s₂⟩
            cases r with
            | error e2 =>
              simp [M.bind_apply, hz] at hrun
            | ok u =>
              simp [M.bind_apply, hz, archiveTruthy_eq_true,
                archiveLoop_cons_apply] at hrun

/-- A fully successful `transfer_file`: it appends exactly the fetch and the
put to the trace (plus the webhook POST when a sink is configured). -/
theorem transfer_file_ok_trace (cfg : Config) (env : Env)
    (details : List (String × SFTPAttr)) (f : String) (s : List Effect)
    (hfetch : env.fetchFails f = false) (hput : env.putFails f = false)
    (hpost : env.postFails (singleMsg details f) = false) :
    ∃ tail, transfer_file cfg env details f s =
      (Except.ok (),
        s ++ [Effect.fetch f (pathJoin cfg.archive_dir f),
              Effect.put (pathJoin cfg.archive_dir f) f] ++ tail) := by
  cases hsl : cfg.slack with
  | none =>
    refine ⟨[], ?_⟩
    simp [transfer_file, download_file, sourceGet, destPut, notify, hsl,
      hfetch, hput, M.bind_apply, M.emit_apply, M.pure_apply]
  | some url =>
    refine ⟨[Effect.post url (singleMsg details f)], ?_⟩
    simp [transfer_file, download_file, sourceGet, destPut, notify,
      requestsPost, hsl, hfetch, hput, hpost, M.bind_apply, M.emit_apply,
      M.pure_apply]

/-- Head step of a non-dry direct-mode loop when the first transfer succeeds:
the fetch and put complete — and then the `self.archive_file` lookup raises. -/
theorem transferLoop_direct_head (cfg : Config) (env : Env)
    (details : List (String × SFTPAttr)) (f : String) (rest t lf : List String)
    (s : List Effect) (hzip : cfg.zip = false)
    (hfetch : env.fetchFails f = false) (hput : env.putFails f = false)
    (hpost : env.postFails (singleMsg details f) = false) :
    ∃ tail, transferLoop cfg false env details (f :: rest) t lf s =
      (Except.error (Err.attributeError "archive_file"),
        s ++ [Effect.fetch f (pathJoin cfg.archive_dir f),
              Effect.put (pathJoin cfg.archive_dir f) f] ++ tail) := by
  obtain ⟨tail, htf⟩ :=
    transfer_file_ok_trace cfg env details f s hfetch hput hpost
  refine ⟨tail, ?_⟩
  simp [transferLoop, hzip, M.bind_apply, htf, archiveTruthy_eq_true,
    archive_file_call_apply]

/-- Head step of a non-dry direct-mode loop when the webhook POST fails: the
fetch and the put have already completed, then `requests.post` raises out of
`notify`/`transfer_file` before the filename is appended. -/
theorem transferLoop_direct_head_postfail (cfg : Config) (env : Env)
    (details : List (String × SFTPAttr)) (f : String) (rest t lf : List String)
    (s : List Effect) (url : String) (hzip : cfg.zip = false)
    (hsl : cfg.slack = some url)
    (hfetch : env.fetchFails f = false) (hput : env.putFails f = false)
    (hpostf : env.postFails (singleMsg details f) = true) :
    transferLoop cfg false env details (f :: rest) t lf s =
      (Except.error (Err.postError (singleMsg details f)),
        s ++ [Effect.fetch f (pathJoin cfg.archive_dir f),
              Effect.put (pathJoin cfg.archive_dir f) f]) := by
  have htf : transfer_file cfg env details f s =
      (Except.error (Err.postError (singleMsg details f)),
        s ++ [Effect.fetch f (pathJoin cfg.archive_dir f),
              Effect.put (pathJoin cfg.archive_dir f) f]) := by
    simp [transfer_file, download_file, sourceGet, destPut, notify,
      requestsPost, hsl, hfetch, hput, hpostf, M.bind_apply, M.emit_apply,
      M.pure_apply, M.throw_apply]
  simp [transferLoop, hzip, M.bind_apply, htf]

/-- A raising loop makes the whole run raise with the same exception and the
same trace (nothing after the loop catches anything). -/
theorem transfer_eq_of_loop_error (cfg : Config) (dry_run : Bool) (env : Env)
    (stored : StoredBlob) (listing : List SFTPAttr) (t₀ : List String)
    (e : Err) (s₁ : List Effect)
    (hload : load_state_blob stored = Except.ok t₀)
    (hle : transferLoop cfg dry_run env (file_details listing)
        (diffList (sourceFiles listing) t₀) t₀ [] [] = (Except.error e, s₁)) :
    transfer cfg dry_run env stored listing = (Except.error e, s₁) := by
  simp only [transfer, transferM, hload, M.bind_apply, M.pure_apply, hle]

/-- A raising run leaves the state file untouched (line 139 is not reached). -/
theorem stateFileAfter_of_error (cfg : Config) (dry_run : Bool) (env : Env)
    (stored : StoredBlob) (listing : List SFTPAttr) (e : Err)
    (effs : List Effect)
    (h : transfer cfg dry_run env stored listing = (Except.error e, effs)) :
    stateFileAfter cfg dry_run env stored listing = stored := by
  simp [stateFileAfter, h]

/-- Membership in the computed diff is exactly "listed at the source and not
yet recorded as transferred". -/
theorem mem_diffList (source_files transferred : List String) (f : String) :
    f ∈ diffList source_files transferred ↔
      f ∈ source_files ∧ f ∉ transferred := by
  simp [diffList]

/-! ### Concrete fixtures used by counterexamples and witnesses -/

/-- An environment in which no external operation fails. -/
def envOK : Env :=
  ⟨fun _ => false, fun _ => false, fun _ => false, fun _ => false,
   "2024-01-01"⟩

/-- An environment in which only the destination put of file "b" fails. -/
def envPutFailB : Env :=
  ⟨fun _ => false, fun g => g == "b", fun _ => false, fun _ => false,
   "2024-01-01"⟩

/-- An environment in which every webhook POST fails. -/
def envPostFail : Env :=
  ⟨fun _ => false, fun _ => false, fun _ => true, fun _ => false,
   "2024-01-01"⟩

/-- Direct-mode configuration, no notification sink. -/
def cfgDirect : Config := ⟨"myrun", "/arch", false, none⟩

/-- Zip-mode configuration, no notification sink. -/
def cfgZip : Config := ⟨"myrun", "/arch", true, none⟩

/-- Direct-mode configuration with a slack webhook configured. -/
def cfgSlack : Config :=
  ⟨"myrun", "/arch", false, some "https://hooks.example/T0/B0/X0"⟩

/-! ### Claim theorems -/

/-- C1: refuted as stated — evaluation of the code at the failing input.  A
run invoked with dry-run in zip mode with one new 500-byte remote file
`data.csv` does NOT stop after computing the diff: the `if diff and
self.zip:` block of line 132 is not guarded by `dry_run`, so the run builds
the (empty, since nothing was staged) batch zip, PUTS it to the destination,
and then crashes on the `self.archive_file` AttributeError — contradicting
the printed promise of the program that nothing will be transferred. -/
theorem dry_run_zip_mode_puts_to_destination :
    (transfer cfgZip true envOK (StoredBlob.pickleOf [])
        [⟨"data.csv", 500⟩]).1 =
      Except.error (Err.attributeError "archive_file") ∧
    Effect.zipBuild "/arch/myrun-2024-01-01.zip" [] ∈
      (transfer cfgZip true envOK (StoredBlob.pickleOf [])
        [⟨"data.csv", 500⟩]).2 ∧
    Effect.put "/arch/myrun-2024-01-01.zip" "myrun-2024-01-01.zip" ∈
      (transfer cfgZip true envOK (StoredBlob.pickleOf [])
        [⟨"data.csv", 500⟩]).2 ∧
    stateFileAfter cfgZip true envOK (StoredBlob.pickleOf [])
        [⟨"data.csv", 500⟩] = StoredBlob.pickleOf [] := by
  refine ⟨rfl, ?_, ?_, rfl⟩ <;> decide

/-- C2: a filename is in the state file after a run only if it was already
in the state file loaded at the start of the run, or its put (or, in zip
mode, the put of the batch zip) completed without error during the run (the
put appears in the trace) before `store_state` ran. -/
theorem persisted_only_if_put_completed (cfg : Config) (dry_run : Bool)
    (env : Env) (stored : StoredBlob) (listing : List SFTPAttr)
    (t₀ t : List String)
    (hload : load_state_blob stored = Except.ok t₀)
    (hfile : stateFileAfter cfg dry_run env stored listing =
      StoredBlob.pickleOf t) :
    ∀ f ∈ t, f ∈ t₀ ∨
      (∃ lp, Effect.put lp f ∈ (transfer cfg dry_run env stored listing).2) ∨
      (cfg.zip = true ∧
        Effect.put (zipPath cfg env) (zipFilename cfg env) ∈
          (transfer cfg dry_run env stored listing).2) := by
  intro f hf
  left
  rcases hrun : transfer cfg dry_run env stored listing with ⟨r, effs⟩
  cases r with
  | ok t₁ =>
    have hl₁ :=
      transfer_ok_eq_loaded cfg dry_run env stored listing t₁ effs hrun
    have ht₀ : t₀ = t₁ := by
      rw [hload] at hl₁
      exact (Except.ok.injEq _ _ ▸ hl₁)
    simp only [stateFileAfter, hrun, store_state] at hfile
    have ht : t₁ = t := StoredBlob.pickleOf.injEq _ _ ▸ hfile
    rw [ht₀, ht]
    exact hf
  | error e =>
    simp only [stateFileAfter, hrun] at hfile
    rw [hfile] at hload
    have : t = t₀ := Except.ok.injEq _ _ ▸ hload
    rw [← this]
    exact hf

/-- C2 witness: a run over an already-synchronized listing completes, and the
one persisted filename was already in the loaded state. -/
theorem persisted_only_if_put_completed_witness :
    load_state_blob (StoredBlob.pickleOf ["old.txt"]) =
      Except.ok ["old.txt"] ∧
    stateFileAfter cfgDirect false envOK (StoredBlob.pickleOf ["old.txt"])
        [] = StoredBlob.pickleOf ["old.txt"] ∧
    ("old.txt" ∈ (["old.txt"] : List String)) ∧
    ("old.txt" ∈ (["old.txt"] : List String) ∨
      (∃ lp, Effect.put lp "old.txt" ∈
        (transfer cfgDirect false envOK (StoredBlob.pickleOf ["old.txt"])
          []).2) ∨
      (cfgDirect.zip = true ∧
        Effect.put (zipPath cfgDirect envOK) (zipFilename cfgDirect envOK) ∈
          (transfer cfgDirect false envOK (StoredBlob.pickleOf ["old.txt"])
            []).2)) :=
  ⟨rfl, rfl, by decide,
    persisted_only_if_put_completed cfgDirect false envOK
      (StoredBlob.pickleOf ["old.txt"]) [] ["old.txt"] ["old.txt"] rfl rfl
      "old.txt" (by decide)⟩

/-- C3 counterexample: direct mode over {a, b, c} with only the put of b set
to fail.  The claim says the run is not aborted and the persisted state ends
up containing a and c but not b; in fact nothing is caught — the run raises
(after the put of the first file succeeded, at the unconditional
`self.archive_file` call) and the persisted state is the unchanged empty set,
containing neither a nor c. -/
theorem direct_mode_one_failure_counterexample :
    (∃ e, (transfer cfgDirect false envPutFailB (StoredBlob.pickleOf [])
        [⟨"a", 1⟩, ⟨"b", 2⟩, ⟨"c", 3⟩]).1 = Except.error e) ∧
    Effect.put "/arch/a" "a" ∈
      (transfer cfgDirect false envPutFailB (StoredBlob.pickleOf [])
        [⟨"a", 1⟩, ⟨"b", 2⟩, ⟨"c", 3⟩]).2 ∧
    stateFileAfter cfgDirect false envPutFailB (StoredBlob.pickleOf [])
        [⟨"a", 1⟩, ⟨"b", 2⟩, ⟨"c", 3⟩] = StoredBlob.pickleOf [] :=
  ⟨⟨Err.attributeError "archive_file", rfl⟩, by decide, rfl⟩

/-- C3 amended: in direct (non-zip) mode no per-file error is caught at any
boundary; any exception in the per-file loop (a fetch or put failure, or the
unconditional `self.archive_file` AttributeError after the first successful
transfer) aborts the whole run before `store_state`, so the persisted state
is unchanged — it contains none of the files of the run, succeeded or failed —
and a subsequent run over the same listing recomputes the same diff,
retrying all of them. -/
theorem direct_mode_error_aborts_state_unchanged (cfg : Config) (env : Env)
    (stored : StoredBlob) (listing : List SFTPAttr) (t₀ : List String)
    (hd : String) (tl : List String)
    (hzip : cfg.zip = false)
    (hload : load_state_blob stored = Except.ok t₀)
    (hdiff : diffList (sourceFiles listing) t₀ = hd :: tl) :
    (∃ e effs, transfer cfg false env stored listing =
      (Except.error e, effs)) ∧
    stateFileAfter cfg false env stored listing = stored ∧
    (∀ t₁, load_state_blob (stateFileAfter cfg false env stored listing) =
        Except.ok t₁ → diffList (sourceFiles listing) t₁ = hd :: tl) := by
  obtain ⟨e, s₁, hle⟩ :=
    transferLoop_direct_cons_error cfg env (file_details listing) hzip
      hd tl t₀ [] []
  rw [← hdiff] at hle
  have hrun := transfer_eq_of_loop_error cfg false env stored listing t₀ e s₁
    hload hle
  have hstate := stateFileAfter_of_error cfg false env stored listing e s₁
    hrun
  refine ⟨⟨e, s₁, hrun⟩, hstate, ?_⟩
  intro t₁ hload₁
  rw [hstate, hload] at hload₁
  have : t₀ = t₁ := Except.ok.injEq _ _ ▸ hload₁
  rw [← this]
  exact hdiff

/-- C3 amended, witness: the {a, b, c} scenario with only the put of b
failing. -/
theorem direct_mode_error_aborts_state_unchanged_witness :
    cfgDirect.zip = false ∧
    diffList (sourceFiles [⟨"a", 1⟩, ⟨"b", 2⟩, ⟨"c", 3⟩]) [] =
      ["a", "b", "c"] ∧
    ((∃ e effs, transfer cfgDirect false envPutFailB
        (StoredBlob.pickleOf []) [⟨"a", 1⟩, ⟨"b", 2⟩, ⟨"c", 3⟩] =
        (Except.error e, effs)) ∧
      stateFileAfter cfgDirect false envPutFailB (StoredBlob.pickleOf [])
        [⟨"a", 1⟩, ⟨"b", 2⟩, ⟨"c", 3⟩] = StoredBlob.pickleOf [] ∧
      (∀ t₁, load_state_blob (stateFileAfter cfgDirect false envPutFailB
          (StoredBlob.pickleOf []) [⟨"a", 1⟩, ⟨"b", 2⟩, ⟨"c", 3⟩]) =
          Except.ok t₁ →
        diffList (sourceFiles [⟨"a", 1⟩, ⟨"b", 2⟩, ⟨"c", 3⟩]) t₁ =
          ["a", "b", "c"])) :=
  ⟨rfl, rfl,
    direct_mode_error_aborts_state_unchanged cfgDirect envPutFailB
      (StoredBlob.pickleOf []) [⟨"a", 1⟩, ⟨"b", 2⟩, ⟨"c", 3⟩] [] "a"
      ["b", "c"] rfl rfl rfl⟩

/-- C4 counterexample: `store_state` writes the pickle in place.  Starting
from a persisted state holding `a.csv`, a failure after one byte of the new
pickle leaves a truncated blob visible — it is neither the old state nor a
readable new one, and loading it raises — whereas the atomic temp+rename
save the claim describes would have left the old state intact. -/
theorem store_state_crash_leaves_truncated_file :
    store_state (StoredBlob.pickleOf ["a.csv"]) ["a.csv", "b.csv"] (some 1) =
      StoredBlob.truncatedPickle ["a.csv", "b.csv"] 1 ∧
    store_state (StoredBlob.pickleOf ["a.csv"]) ["a.csv", "b.csv"]
        (some 1) ≠ StoredBlob.pickleOf ["a.csv"] ∧
    load_state_blob (store_state (StoredBlob.pickleOf ["a.csv"])
        ["a.csv", "b.csv"] (some 1)) = Except.error Err.unpickleError ∧
    store_state_atomic (StoredBlob.pickleOf ["a.csv"]) ["a.csv", "b.csv"]
        (some 1) = StoredBlob.pickleOf ["a.csv"] := by
  refine ⟨rfl, ?_, rfl, rfl⟩
  decide

/-- C4 amended: on success `store_state` does write the full set, replacing
any prior persisted state for the run name (and it round-trips through
`load_state`); but the write is performed in place with no temporary file
and no atomic rename, so a failure during the write leaves a truncated,
unreadable state file visible — the previously persisted state is NOT
preserved on error. -/
theorem store_state_full_replace_but_not_atomic (oldFile : StoredBlob)
    (files : List String) :
    store_state oldFile files none = StoredBlob.pickleOf files ∧
    load_state_blob (store_state oldFile files none) = Except.ok files ∧
    ∀ k, load_state_blob (store_state oldFile files (some k)) =
      Except.error Err.unpickleError :=
  ⟨rfl, rfl, fun _ => rfl⟩

/-- C5 counterexample: direct-mode run of one 1024-byte file with every
network operation succeeding.  The push to the destination completes (the
put is in the trace), then the post-push archival step fails (the
`self.archive_file` lookup raises AttributeError) — and contrary to the
claim this is fatal: the run aborts and the file is NOT marked transferred
in the persisted state. -/
theorem archival_failure_is_fatal_counterexample :
    (transfer cfgDirect false envOK (StoredBlob.pickleOf [])
        [⟨"report.csv", 1024⟩]).1 =
      Except.error (Err.attributeError "archive_file") ∧
    Effect.put "/arch/report.csv" "report.csv" ∈
      (transfer cfgDirect false envOK (StoredBlob.pickleOf [])
        [⟨"report.csv", 1024⟩]).2 ∧
    stateFileAfter cfgDirect false envOK (StoredBlob.pickleOf [])
        [⟨"report.csv", 1024⟩] = StoredBlob.pickleOf [] :=
  ⟨rfl, by decide, rfl⟩

/-- C5 amended: when the source-side archival step after a successful push
fails (as it always does here: `self.archive` is truthy and
`self.archive_file` does not exist), the exception propagates — the run
aborts before `store_state`, so the successfully pushed file is NOT marked
transferred in the persisted state; the archival failure is fatal to the
run, not merely logged. -/
theorem archival_failure_aborts_unmarked (cfg : Config) (env : Env)
    (stored : StoredBlob) (listing : List SFTPAttr) (t₀ : List String)
    (hd : String) (tl : List String)
    (hzip : cfg.zip = false)
    (hload : load_state_blob stored = Except.ok t₀)
    (hdiff : diffList (sourceFiles listing) t₀ = hd :: tl)
    (hfetch : env.fetchFails hd = false)
    (hput : env.putFails hd = false)
    (hpost : env.postFails (singleMsg (file_details listing) hd) = false) :
    (transfer cfg false env stored listing).1 =
      Except.error (Err.attributeError "archive_file") ∧
    (∃ lp, Effect.put lp hd ∈ (transfer cfg false env stored listing).2) ∧
    stateFileAfter cfg false env stored listing = stored ∧
    hd ∉ t₀ := by
  obtain ⟨tail, hle⟩ :=
    transferLoop_direct_head cfg env (file_details listing) hd tl t₀ [] []
      hzip hfetch hput hpost
  rw [← hdiff] at hle
  have hrun := transfer_eq_of_loop_error cfg false env stored listing t₀ _ _
    hload hle
  refine ⟨by rw [hrun], ?_, stateFileAfter_of_error _ _ _ _ _ _ _ hrun, ?_⟩
  · refine ⟨pathJoin cfg.archive_dir hd, ?_⟩
    rw [hrun]
    simp
  · have : hd ∈ diffList (sourceFiles listing) t₀ := by
      rw [hdiff]; exact List.mem_cons_self _ _
    exact ((mem_diffList _ _ _).mp this).2

/-- C5 amended, witness: the single-file run with everything succeeding. -/
theorem archival_failure_aborts_unmarked_witness :
    cfgDirect.zip = false ∧
    diffList (sourceFiles [⟨"report.csv", 1024⟩]) [] = ["report.csv"] ∧
    ((transfer cfgDirect false envOK (StoredBlob.pickleOf [])
        [⟨"report.csv", 1024⟩]).1 =
      Except.error (Err.attributeError "archive_file") ∧
    (∃ lp, Effect.put lp "report.csv" ∈
      (transfer cfgDirect false envOK (StoredBlob.pickleOf [])
        [⟨"report.csv", 1024⟩]).2) ∧
    stateFileAfter cfgDirect false envOK (StoredBlob.pickleOf [])
        [⟨"report.csv", 1024⟩] = StoredBlob.pickleOf [] ∧
    "report.csv" ∉ ([] : List String)) :=
  ⟨rfl, rfl,
    archival_failure_aborts_unmarked cfgDirect envOK (StoredBlob.pickleOf [])
      [⟨"report.csv", 1024⟩] [] "report.csv" [] rfl rfl rfl rfl rfl rfl⟩

/-- C6 counterexample: slack is configured and the webhook POST fails after
a fully successful push of `report.csv`.  Contrary to the claim, the
`requests.post` exception propagates out of `notify`/`transfer_file` before
line 128 appends the filename: the run aborts and the transferred file is
absent from the persisted state. -/
theorem notification_failure_is_fatal_counterexample :
    (transfer cfgSlack false envPostFail (StoredBlob.pickleOf [])
        [⟨"report.csv", 1024⟩]).1 =
      Except.error (Err.postError "Transferred report.csv (1024 bytes)") ∧
    Effect.put "/arch/report.csv" "report.csv" ∈
      (transfer cfgSlack false envPostFail (StoredBlob.pickleOf [])
        [⟨"report.csv", 1024⟩]).2 ∧
    stateFileAfter cfgSlack false envPostFail (StoredBlob.pickleOf [])
        [⟨"report.csv", 1024⟩] = StoredBlob.pickleOf [] :=
  ⟨rfl, by decide, rfl⟩

/-- C6 amended: a webhook POST failure is NOT fire-and-forget: `notify` is
called inside `transfer_file` before the caller appends the filename, so the
exception aborts the run before `store_state` — the successfully pushed file
ends up not marked in the persisted state (rather than "never un-marked",
it is never marked at all), and the run does not continue. -/
theorem notification_failure_aborts_unmarked (cfg : Config) (env : Env)
    (stored : StoredBlob) (listing : List SFTPAttr) (t₀ : List String)
    (hd : String) (tl : List String) (url : String)
    (hzip : cfg.zip = false) (hsl : cfg.slack = some url)
    (hload : load_state_blob stored = Except.ok t₀)
    (hdiff : diffList (sourceFiles listing) t₀ = hd :: tl)
    (hfetch : env.fetchFails hd = false)
    (hput : env.putFails hd = false)
    (hpostf : env.postFails (singleMsg (file_details listing) hd) = true) :
    (transfer cfg false env stored listing).1 =
      Except.error (Err.postError (singleMsg (file_details listing) hd)) ∧
    Effect.put (pathJoin cfg.archive_dir hd) hd ∈
      (transfer cfg false env stored listing).2 ∧
    stateFileAfter cfg false env stored listing = stored ∧
    hd ∉ t₀ := by
  have hle := transferLoop_direct_head_postfail cfg env (file_details listing)
    hd tl t₀ [] [] url hzip hsl hfetch hput hpostf
  rw [← hdiff] at hle
  have hrun := transfer_eq_of_loop_error cfg false env stored listing t₀ _ _
    hload hle
  refine ⟨by rw [hrun], ?_, stateFileAfter_of_error _ _ _ _ _ _ _ hrun, ?_⟩
  · rw [hrun]
    simp
  · have : hd ∈ diffList (sourceFiles listing) t₀ := by
      rw [hdiff]; exact List.mem_cons_self _ _
    exact ((mem_diffList _ _ _).mp this).2

/-- C6 amended, witness: the slack-configured single-file run whose POST
fails. -/
theorem notification_failure_aborts_unmarked_witness :
    cfgSlack.zip = false ∧
    cfgSlack.slack = some "https://hooks.example/T0/B0/X0" ∧
    ((transfer cfgSlack false envPostFail (StoredBlob.pickleOf [])
        [⟨"report.csv", 1024⟩]).1 =
      Except.error (Err.postError
        (singleMsg (file_details [⟨"report.csv", 1024⟩]) "report.csv")) ∧
    Effect.put (pathJoin cfgSlack.archive_dir "report.csv") "report.csv" ∈
      (transfer cfgSlack false envPostFail (StoredBlob.pickleOf [])
        [⟨"report.csv", 1024⟩]).2 ∧
    stateFileAfter cfgSlack false envPostFail (StoredBlob.pickleOf [])
        [⟨"report.csv", 1024⟩] = StoredBlob.pickleOf [] ∧
    "report.csv" ∉ ([] : List String)) :=
  ⟨rfl, rfl,
    notification_failure_aborts_unmarked cfgSlack envPostFail
      (StoredBlob.pickleOf []) [⟨"report.csv", 1024⟩] [] "report.csv" []
      "https://hooks.example/T0/B0/X0" rfl rfl rfl rfl rfl rfl rfl⟩

/-- C7: refuted for the "configured port" part — evaluation at the failing
input.  `_validate_port` validates `int(config["PORT"])` but returns the
never-reassigned local `port = self.default_port`, so with `PORT = "2222"`
the connection is still dialed on 22, not 2222; `PORT` absent also gives 22,
and a non-numeric `PORT` does error out before connecting. -/
theorem configured_port_is_discarded :
    connection_port ⟨some "h", some "u", some "p", some "2222", none⟩ =
      Except.ok 22 ∧
    connection_port ⟨some "h", some "u", some "p", none, none⟩ =
      Except.ok 22 ∧
    connection_port ⟨some "h", some "u", some "p", some "abc", none⟩ =
      Except.error ConfigError.portNotANumber ∧
    validate_port (some "2222") = Except.ok default_port ∧
    default_port = 22 :=
  ⟨rfl, rfl, rfl, rfl, rfl⟩

/-- C8 counterexample: a config whose `[main]` holds only `name` (with
`source` and `dest` present) is rejected — lines 40-42 of `get_config`
demand `archive_dir` as well, so the claim that `archive_dir` is optional
fails. -/
theorem get_config_requires_archive_dir :
    get_config ⟨some ⟨some "h", some "u", some "p", none, none⟩,
                some ⟨some "h", some "u", some "p", none, none⟩,
                some ⟨some "x", none, none, none⟩⟩ =
      Except.error (ConfigError.missingKey "archive_dir") := rfl

/-- C8 amended: config loading succeeds when `[main]` contains `name` AND
`archive_dir` (both are required); `zip` and `slack` are genuinely optional
— any combination of their presence or absence loads without error. -/
theorem get_config_ok_with_name_and_archive_dir (src dst : SftpSection)
    (nm ad : String) (z sl : Option String) :
    get_config ⟨some src, some dst, some ⟨some nm, some ad, z, sl⟩⟩ =
      Except.ok ⟨some src, some dst, some ⟨some nm, some ad, z, sl⟩⟩ := rfl

/-- C9: the computed diff is exact set subtraction — membership-wise it is
`R \ T`, `diff(R, R)` is empty, `diff(R, ∅)` is all of `R`, and no filename
already recorded as transferred is ever reported as to-transfer. -/
theorem diff_is_exact_set_subtraction (R T : List String) :
    (diffList R T).toFinset = diffFinset R T ∧
    diffList R R = [] ∧
    diffList R [] = R ∧
    ∀ f, f ∈ T → f ∉ diffList R T := by
  refine ⟨?_, ?_, ?_, ?_⟩
  · ext f
    simp [diffList, diffFinset]
  · simp [diffList, List.filter_eq_nil_iff]
  · simp [diffList]
  · intro f hf hmem
    exact ((mem_diffList _ _ _).mp hmem).2 hf

/-- C9 witness: `b.csv` is recorded as transferred, and accordingly is not
in the diff even though the remote listing still contains it. -/
theorem diff_is_exact_set_subtraction_witness :
    ("b.csv" ∈ (["b.csv"] : List String)) ∧
    "b.csv" ∉ diffList ["a.csv", "b.csv"] ["b.csv"] :=
  ⟨by decide,
    (diff_is_exact_set_subtraction ["a.csv", "b.csv"] ["b.csv"]).2.2.2
      "b.csv" (by decide)⟩

/-- C10: in the class dict the `def archive` of line 141 replaced the
`@property` of line 109, so `self.archive` is a bound method and truthy in
every configuration; consequently every non-dry direct-mode run with a
non-empty diff whose first transfer succeeds enters the archival branch
regardless of `archive_dir` and raises AttributeError on the undefined
`self.archive_file` right after the put of the first file, aborting the run
before any state is persisted. -/
theorem archive_shadowing_aborts_direct_run (cfg : Config) (env : Env)
    (stored : StoredBlob) (listing : List SFTPAttr) (t₀ : List String)
    (hd : String) (tl : List String)
    (hzip : cfg.zip = false)
    (hload : load_state_blob stored = Except.ok t₀)
    (hdiff : diffList (sourceFiles listing) t₀ = hd :: tl)
    (hfetch : env.fetchFails hd = false)
    (hput : env.putFails hd = false)
    (hpost : env.postFails (singleMsg (file_details listing) hd) = false) :
    classAttr sftpSyncClassBody "archive" = some PyMember.method ∧
    archiveTruthy cfg = true ∧
    (transfer cfg false env stored listing).1 =
      Except.error (Err.attributeError "archive_file") ∧
    stateFileAfter cfg false env stored listing = stored := by
  obtain ⟨tail, hle⟩ :=
    transferLoop_direct_head cfg env (file_details listing) hd tl t₀ [] []
      hzip hfetch hput hpost
  rw [← hdiff] at hle
  have hrun := transfer_eq_of_loop_error cfg false env stored listing t₀ _ _
    hload hle
  exact ⟨rfl, rfl, by rw [hrun],
    stateFileAfter_of_error _ _ _ _ _ _ _ hrun⟩

/-- C10 witness: the concrete one-file direct run with no failures. -/
theorem archive_shadowing_aborts_direct_run_witness :
    cfgDirect.zip = false ∧
    diffList (sourceFiles [⟨"data.csv", 500⟩]) [] = ["data.csv"] ∧
    (classAttr sftpSyncClassBody "archive" = some PyMember.method ∧
    archiveTruthy cfgDirect = true ∧
    (transfer cfgDirect false envOK (StoredBlob.pickleOf [])
        [⟨"data.csv", 500⟩]).1 =
      Except.error (Err.attributeError "archive_file") ∧
    stateFileAfter cfgDirect false envOK (StoredBlob.pickleOf [])
        [⟨"data.csv", 500⟩] = StoredBlob.pickleOf []) :=
  ⟨rfl, rfl,
    archive_shadowing_aborts_direct_run cfgDirect envOK
      (StoredBlob.pickleOf []) [⟨"data.csv", 500⟩] [] "data.csv" [] rfl rfl
      rfl rfl rfl rfl⟩

end SftpSyncModel
